import Mathlib

/-!
Verification of the TanStack Start + Intlayer starter template.

The repository consists of a root redirect route (`src/routes/index.tsx`)
and the integration components shown in the project documentation:
`LocalizedLink`, `useLocalizedNavigate` and `LocaleSwitcher`.  Strings are
modelled by Lean `String`; the helper functions below work on the
underlying character lists so that proofs reduce to list reasoning.
-/

/-- Character-list version of "the first list starts with the second". -/
def chStarts : List Char → List Char → Bool
  | _, [] => true
  | [], _ :: _ => false
  | c :: cs, p :: ps => c == p && chStarts cs ps

/-- Character-list equality test. -/
def chEq : List Char → List Char → Bool
  | [], [] => true
  | _ :: _, [] => false
  | [], _ :: _ => false
  | a :: as, b :: bs => a == b && chEq as bs

/-- `startsW s p` is true when string `s` starts with `p`
(the JavaScript `String.prototype.startsWith`, also used to embed the
anchored regex tests of the source). -/
def startsW (s p : String) : Bool := chStarts s.data p.data

/-- String equality test on the character data. -/
def strEq (a b : String) : Bool := chEq a.data b.data

/-- Drop the first `n` characters of a string. -/
def strDrop (s : String) (n : Nat) : String := ⟨s.data.drop n⟩

/-- The locales configured in `intlayer.config.ts`:
`[Locales.ENGLISH, Locales.FRENCH, Locales.SPANISH]`. -/
def locales : List String := ["en", "fr", "es"]

/-- The default locale configured in `intlayer.config.ts`: `Locales.ENGLISH`. -/
def defaultLocale : String := "en"

/-- The external-URL test shared by `LocalizedLink` and
`useLocalizedNavigate`: `/^(https?:)?\/\//.test(to)` — the string starts
with an optional `http:` or `https:` scheme followed by `//`. -/
def isExternal («to» : String) : Bool :=
  startsW «to» "//" || startsW «to» "http://" || startsW «to» "https://"

/-- Whether `path` is exactly `/l` or starts with `/l/`, i.e. carries the
locale `l` as its first segment. -/
def segMatch (path l : String) : Bool :=
  strEq path ("/" ++ l) || startsW path ("/" ++ l ++ "/")

/-- Remove the leading locale segment of `path` for the first matching
locale in `ls`; leave `path` unchanged when no configured locale matches. -/
def stripLoc : List String → String → String
  | [], path => path
  | l :: ls, path =>
      if segMatch path l then strDrop path (1 + l.length) else stripLoc ls path

/-- Force a leading slash. -/
def ensureSlash (p : String) : String := if startsW p "/" then p else "/" ++ p

/-- Modelled from the spec: the intlayer library's `getLocalizedUrl`
path-rewriting function is not part of this repository.  Per §4.1 and the
glossary it rewrites an application-relative path to carry the given
locale's prefix (with `prefixDefault: true` every locale, the default
included, is prefixed), and per §8 the result of localizing an internal
path begins with `/L/`.  The model removes an existing supported-locale
first segment and prepends the target locale. -/
def getLocalizedUrl (url : String) (locale : String) : String :=
  "/" ++ locale ++ ensureSlash (stripLoc locales url)

/-- Props of `LocalizedLink` / options of `localizedNavigate`: a `to`
string plus all remaining fields (`Omit<LinkProps, 'to'>` resp.
`Omit<NavigateOptions, 'to'>`), carried opaquely in `rest`. -/
structure ToProps (ρ : Type) where
  «to» : String
  rest : ρ

/-- The `LocalizedLink` component: the props handed to the underlying
`Link`, i.e. `<Link {...props} to={isExternal(props.to) ? props.to :
getLocalizedUrl(props.to, locale)} />`, with `locale` the ambient locale
from `useLocale()`. -/
def LocalizedLink {ρ : Type} (locale : String) (props : ToProps ρ) : ToProps ρ :=
  { props with
    «to» := if isExternal props.«to» then props.«to» else getLocalizedUrl props.«to» locale }

/-- The function returned by `useLocalizedNavigate`: the options handed to
the underlying `navigate`, i.e. `navigate({ ...options, to:
isExternal(options.to) ? options.to : getLocalizedUrl(options.to, locale) })`. -/
def localizedNavigate {ρ : Type} (locale : String) (options : ToProps ρ) : ToProps ρ :=
  { options with
    «to» := if isExternal options.«to» then options.«to» else getLocalizedUrl options.«to» locale }

/-- The `onLocaleChange` handler of `LocaleSwitcher`:
`getLocalizedUrl(pathname + searchStr, newLocale)`, the URL handed to
`location.replace`. -/
def pathWithLocale (pathname searchStr newLocale : String) : String :=
  getLocalizedUrl (pathname ++ searchStr) newLocale

/-- An `<option>` element rendered by `LocaleSwitcher`: its `value` and
`lang` attributes are the locale item (display-only attributes coming from
the external intlayer display helpers are not modelled). -/
structure OptionEl where
  value : String
  lang : String
deriving DecidableEq

/-- The `<select>` element rendered by `LocaleSwitcher`: its controlled
`value` and its list of options. -/
structure SelectEl where
  value : String
  options : List OptionEl
deriving DecidableEq

/-- The `LocaleSwitcher` component's rendered select, as a function of the
`availableLocales` and `locale` delivered by `useLocale` (the configured
supported locales and the active locale). -/
def LocaleSwitcher (availableLocales : List String) (locale : String) : SelectEl :=
  { value := locale,
    options := availableLocales.map (fun localeItem => ⟨localeItem, localeItem⟩) }

/-- The options a controlled `<select>` marks selected: those whose
`value` attribute equals the select's `value`. -/
def selOpts (s : SelectEl) : List OptionEl :=
  s.options.filter (fun o => strEq o.value s.value)

/-- The props of the `<Navigate>` element. -/
structure NavigateProps where
  replace : Bool
  «to» : String

/-- The root route component of `src/routes/index.tsx`: with `locale` the
ambient locale from `useLocale()`, it renders
`<Navigate replace to={locale} />`. -/
def RouteComponent (locale : String) : NavigateProps :=
  { replace := true, «to» := locale }

/-- Modelled from the spec: resolution of a `to` target against the
current pathname is performed by the external routing framework.  An
absolute target (leading `/`) is taken as-is; a relative target is joined
to the current path, so from the root `/` the target `t` resolves to
`/t`. -/
def resolveTo (base «to» : String) : String :=
  if startsW «to» "/" then «to»
  else (if strEq base "/" then "" else base) ++ "/" ++ «to»

/-- Modelled from the spec: the browser-history effect of a `<Navigate>`.
The history is a stack of pathnames, most recent first.  A
replace-navigation substitutes the resolved target for the current entry;
a push-navigation stacks it on top. -/
def applyNavigate (h : List String) (base : String) (n : NavigateProps) : List String :=
  if n.replace then resolveTo base n.«to» :: h.drop 1
  else resolveTo base n.«to» :: h

/-- Visiting the unprefixed root on top of history `h`: the entry `/`
becomes current, then the root route component's `<Navigate>` fires. -/
def visitRoot (locale : String) (h : List String) : List String :=
  applyNavigate ("/" :: h) "/" (RouteComponent locale)

/- ------------------------------------------------------------------ -/
/- Helper lemmas on the character-list functions.                      -/
/- ------------------------------------------------------------------ -/

theorem chStarts_nil (x : List Char) : chStarts x [] = true := by
  cases x <;> rfl

theorem chStarts_pre (x y z : List Char) :
    chStarts (x ++ y) (x ++ z) = chStarts y z := by
  induction x with
  | nil => rfl
  | cons a as ih => simp [chStarts, ih]

theorem chStarts_grow (p : List Char) : ∀ s u : List Char,
    chStarts s p = true → chStarts (s ++ u) p = true := by
  induction p with
  | nil => intro s u _; exact chStarts_nil _
  | cons q qs ih =>
      intro s u hs
      cases s with
      | nil => simp [chStarts] at hs
      | cons a as =>
          simp [chStarts] at hs ⊢
          exact ⟨hs.1, ih as u hs.2⟩

theorem chStarts_app_false (x : List Char) (c c' : Char) (s t : List Char)
    (h : (c == c') = false) :
    chStarts (x ++ c :: s) (x ++ c' :: t) = false := by
  induction x with
  | nil => simp [chStarts, h]
  | cons a as ih => simp [chStarts, ih]

theorem chEq_app_false (x : List Char) (c c' : Char) (s t : List Char)
    (h : (c == c') = false) :
    chEq (x ++ c :: s) (x ++ c' :: t) = false := by
  induction x with
  | nil => simp [chEq, h]
  | cons a as ih => simp [chEq, ih]

/-- Two strings with the same character data are equal. -/
theorem strext (a b : String) (h : a.data = b.data) : a = b := by
  cases a; cases b; exact congrArg String.mk h

theorem strData (a b : String) : (a ++ b).data = a.data ++ b.data := rfl

theorem strAssoc (a b c : String) : a ++ b ++ c = a ++ (b ++ c) := by
  apply strext
  simp [strData]

theorem startsW_grow (s u p : String) (h : startsW s p = true) :
    startsW (s ++ u) p = true := by
  unfold startsW at h ⊢
  rw [strData]
  exact chStarts_grow _ _ _ h

theorem ensureSlash_id (p : String) (h : startsW p "/" = true) :
    ensureSlash p = p := by
  simp [ensureSlash, h]

theorem ensureSlash_starts (p : String) : startsW (ensureSlash p) "/" = true := by
  by_cases hc : startsW p "/" = true
  · rw [ensureSlash_id p hc]; exact hc
  · have hc' : startsW p "/" = false := by
      revert hc; cases startsW p "/" <;> simp
    have e : startsW ("/" ++ p) "/" = true := by
      show chStarts ("/" ++ p).data ['/'] = true
      rw [show ("/" ++ p).data = '/' :: p.data from rfl]
      simp [chStarts, chStarts_nil]
    simp [ensureSlash, hc', e]

theorem segMatch_pre (l b : String) (hb : startsW b "/" = true) :
    segMatch ("/" ++ l ++ b) l = true := by
  have e1 : ("/" ++ l ++ b).data = ('/' :: l.data) ++ b.data := by
    simp [strData]
  have e2 : ("/" ++ l ++ "/").data = ('/' :: l.data) ++ ['/'] := by
    simp [strData]
  have h2 : startsW ("/" ++ l ++ b) ("/" ++ l ++ "/") = true := by
    unfold startsW
    rw [e1, e2, chStarts_pre]
    exact hb
  simp [segMatch, h2]

theorem segMatch_mis (p l' : String) (x : List Char) (c c' : Char)
    (s t : List Char) (hp : p.data = x ++ c :: s)
    (hl : '/' :: l'.data = x ++ c' :: t) (hcc : (c == c') = false) :
    segMatch p l' = false := by
  have e1 : ("/" ++ l').data = '/' :: l'.data := rfl
  have e2 : ("/" ++ l' ++ "/").data = ('/' :: l'.data) ++ ['/'] := by
    simp [strData]
  have hEq : strEq p ("/" ++ l') = false := by
    unfold strEq
    rw [hp, e1, hl]
    exact chEq_app_false x c c' s t hcc
  have hSt : startsW p ("/" ++ l' ++ "/") = false := by
    unfold startsW
    rw [hp, e2, hl, List.append_assoc]
    exact chStarts_app_false x c c' s (t ++ ['/']) hcc
  simp [segMatch, hEq, hSt]

theorem stripLoc_cons_hit (l : String) (ls : List String) (b : String)
    (hb : startsW b "/" = true) :
    stripLoc (l :: ls) ("/" ++ l ++ b) = b := by
  have h1 := segMatch_pre l b hb
  apply strext
  have e1 : ("/" ++ l ++ b).data = '/' :: (l.data ++ b.data) := by
    simp [strData]
  have e2 : (1 : Nat) + l.length = l.data.length + 1 := by
    have : l.length = l.data.length := rfl
    omega
  simp [stripLoc, h1, strDrop, e1, e2, List.drop_left]

theorem stripLoc_cons_skip (l : String) (ls : List String) (p : String)
    (h : segMatch p l = false) :
    stripLoc (l :: ls) p = stripLoc ls p := by
  simp [stripLoc, h]

theorem stripLoc_round (l b : String) (hL : l ∈ locales)
    (hb : startsW b "/" = true) :
    stripLoc locales ("/" ++ l ++ b) = b := by
  have hL' : l = "en" ∨ l = "fr" ∨ l = "es" := by simpa [locales] using hL
  rcases hL' with h | h | h <;> subst h
  · exact stripLoc_cons_hit "en" ["fr", "es"] b hb
  · have s1 : segMatch ("/" ++ "fr" ++ b) "en" = false := by
      apply segMatch_mis _ _ ['/'] 'f' 'e' ('r' :: b.data) ['n']
      · simp [strData]
      · rfl
      · decide
    rw [show locales = "en" :: ["fr", "es"] from rfl, stripLoc_cons_skip _ _ _ s1]
    exact stripLoc_cons_hit "fr" ["es"] b hb
  · have s1 : segMatch ("/" ++ "es" ++ b) "en" = false := by
      apply segMatch_mis _ _ ['/', 'e'] 's' 'n' b.data []
      · simp [strData]
      · rfl
      · decide
    have s2 : segMatch ("/" ++ "es" ++ b) "fr" = false := by
      apply segMatch_mis _ _ ['/'] 'e' 'f' ('s' :: b.data) ['r']
      · simp [strData]
      · rfl
      · decide
    rw [show locales = "en" :: "fr" :: ["es"] from rfl,
      stripLoc_cons_skip _ _ _ s1, stripLoc_cons_skip _ _ _ s2]
    exact stripLoc_cons_hit "es" [] b hb

theorem getLocalizedUrl_starts (url locale : String) :
    startsW (getLocalizedUrl url locale) ("/" ++ locale ++ "/") = true := by
  have e1 : (getLocalizedUrl url locale).data =
      ('/' :: locale.data) ++ (ensureSlash (stripLoc locales url)).data := by
    simp [getLocalizedUrl, strData]
  have e2 : ("/" ++ locale ++ "/").data = ('/' :: locale.data) ++ ['/'] := by
    simp [strData]
  unfold startsW
  rw [e1, e2, chStarts_pre]
  exact ensureSlash_starts _

theorem isExternal_of_seg (p : String) (c : Char) (t : List Char)
    (hp : p.data = '/' :: c :: t) (hc : (c == '/') = false) :
    isExternal p = false := by
  have e1 : ("//" : String).data = ['/', '/'] := rfl
  have e2 : ("http://" : String).data = ['h', 't', 't', 'p', ':', '/', '/'] := rfl
  have e3 : ("https://" : String).data =
      ['h', 't', 't', 'p', 's', ':', '/', '/'] := rfl
  simp [isExternal, startsW, hp, e1, e2, e3, chStarts, hc]

theorem isExternal_getLocalized (url locale : String) (hL : locale ∈ locales) :
    isExternal (getLocalizedUrl url locale) = false := by
  have hL' : locale = "en" ∨ locale = "fr" ∨ locale = "es" := by
    simpa [locales] using hL
  rcases hL' with h | h | h <;> subst h
  · exact isExternal_of_seg _ 'e'
      ('n' :: (ensureSlash (stripLoc locales url)).data) rfl (by decide)
  · exact isExternal_of_seg _ 'f'
      ('r' :: (ensureSlash (stripLoc locales url)).data) rfl (by decide)
  · exact isExternal_of_seg _ 'e'
      ('s' :: (ensureSlash (stripLoc locales url)).data) rfl (by decide)

theorem getLocalizedUrl_idem (url locale : String) (hL : locale ∈ locales) :
    getLocalizedUrl (getLocalizedUrl url locale) locale = getLocalizedUrl url locale := by
  have hE : startsW (ensureSlash (stripLoc locales url)) "/" = true :=
    ensureSlash_starts _
  unfold getLocalizedUrl
  rw [stripLoc_round locale _ hL hE, ensureSlash_id _ hE]

theorem visitRoot_eq (L : String) (h : List String)
    (h1 : startsW L "/" = false) : visitRoot L h = ("/" ++ L) :: h := by
  have h2 : strEq "/" "/" = true := by decide
  have h3 : ("" : String) ++ "/" ++ L = "/" ++ L := rfl
  simp [visitRoot, applyNavigate, RouteComponent, resolveTo, h1, h2, h3]

/- ------------------------------------------------------------------ -/
/- Claim theorems.                                                     -/
/- ------------------------------------------------------------------ -/

/-- C1: for every string matching the external-URL pattern `^(https?:)?//`
and every locale, the localization step of both `LocalizedLink` and
`useLocalizedNavigate` returns the path unchanged. -/
theorem external_url_unchanged {ρ ρ' : Type} (r : ρ) (r' : ρ') (U L : String)
    (h : isExternal U = true) :
    (LocalizedLink L ⟨U, r⟩).«to» = U ∧ (localizedNavigate L ⟨U, r'⟩).«to» = U := by
  constructor <;> simp [LocalizedLink, localizedNavigate, h]

theorem external_url_unchanged_witness :
    isExternal "https://example.com/a" = true ∧
      ((LocalizedLink "fr" (⟨"https://example.com/a", ()⟩ : ToProps Unit)).«to» =
          "https://example.com/a" ∧
        (localizedNavigate "fr" (⟨"https://example.com/a", ()⟩ : ToProps Unit)).«to» =
          "https://example.com/a") :=
  ⟨by decide, external_url_unchanged () () "https://example.com/a" "fr" (by decide)⟩

/-- C2: the localization step of `LocalizedLink` is idempotent: applying
the component twice with the same supported locale yields the same props
as applying it once. -/
theorem localize_idem {ρ : Type} (r : ρ) (p L : String) (hL : L ∈ locales) :
    LocalizedLink L (LocalizedLink L ⟨p, r⟩) = LocalizedLink L ⟨p, r⟩ := by
  by_cases hx : isExternal p = true
  · simp [LocalizedLink, hx]
  · have hx' : isExternal p = false := by
      revert hx; cases isExternal p <;> simp
    simp [LocalizedLink, hx', isExternal_getLocalized p L hL,
      getLocalizedUrl_idem p L hL]

theorem localize_idem_witness :
    "fr" ∈ locales ∧
      LocalizedLink "fr" (LocalizedLink "fr" (⟨"/about", ()⟩ : ToProps Unit)) =
        LocalizedLink "fr" (⟨"/about", ()⟩ : ToProps Unit) :=
  ⟨by decide, localize_idem () "/about" "fr" (by decide)⟩

/-- C3: when a request arrives at the unprefixed root and the resolved
locale is the default locale `en`, the root route component redirects to
`/en`. -/
theorem root_redirects_to_en (h : List String) :
    defaultLocale = "en" ∧ visitRoot defaultLocale h = "/en" :: h :=
  ⟨rfl, visitRoot_eq "en" h (by decide)⟩

/-- C4: the locale switcher's change handler navigates to the
localization of pathname + query under the target locale: from a
locale-prefixed location `/L{rest}` with query `Q`, switching to `L'`
goes to `/L'{rest}Q`, preserving the remaining path and the query
string. -/
theorem locale_switch_preserves_path_query (L rest Q L' : String)
    (hL : L ∈ locales) (hr : startsW rest "/" = true) :
    pathWithLocale ("/" ++ L ++ rest) Q L' = "/" ++ L' ++ (rest ++ Q) := by
  have e : ("/" ++ L ++ rest) ++ Q = "/" ++ L ++ (rest ++ Q) := strAssoc _ _ _
  have hrq : startsW (rest ++ Q) "/" = true := startsW_grow rest Q "/" hr
  unfold pathWithLocale getLocalizedUrl
  rw [e, stripLoc_round L _ hL hrq, ensureSlash_id _ hrq]

theorem locale_switch_witness :
    ("en" ∈ locales ∧ startsW "/about" "/" = true) ∧
      pathWithLocale ("/" ++ "en" ++ "/about") "?x=1" "fr" =
        "/" ++ "fr" ++ ("/about" ++ "?x=1") :=
  ⟨⟨by decide, by decide⟩,
    locale_switch_preserves_path_query "en" "/about" "?x=1" "fr" (by decide) (by decide)⟩

/-- C5: for every supported locale `L` and every internal (non-external)
path `P`, the localized destination begins with `/L/`. -/
theorem localize_starts_with_locale {ρ : Type} (r : ρ) (L P : String)
    (_hL : L ∈ locales) (hP : isExternal P = false) :
    startsW (LocalizedLink L ⟨P, r⟩).«to» ("/" ++ L ++ "/") = true := by
  simp [LocalizedLink, hP]
  exact getLocalizedUrl_starts P L

theorem localize_starts_witness :
    ("en" ∈ locales ∧ isExternal "/about" = false) ∧
      startsW (LocalizedLink "en" (⟨"/about", ()⟩ : ToProps Unit)).«to»
        ("/" ++ "en" ++ "/") = true :=
  ⟨⟨by decide, by decide⟩,
    localize_starts_with_locale () "en" "/about" (by decide) (by decide)⟩

/-- C7: the root redirect is an unconditional replace-navigation: the
`<Navigate>` always carries `replace`, visiting the unprefixed root
substitutes `/L` for the `/` entry without retaining it, and the history
never holds `/` afterwards, so back-navigation cannot return to the
unprefixed root. -/
theorem root_redirect_replaces_history (L : String) (h : List String)
    (hL : L ∈ locales) (hh : "/" ∉ h) :
    (RouteComponent L).replace = true ∧
      visitRoot L h = ("/" ++ L) :: h ∧ "/" ∉ visitRoot L h := by
  have hL' : L = "en" ∨ L = "fr" ∨ L = "es" := by simpa [locales] using hL
  rcases hL' with hc | hc | hc <;> subst hc
  · refine ⟨rfl, visitRoot_eq "en" h (by decide), ?_⟩
    rw [visitRoot_eq "en" h (by decide)]
    simp only [List.mem_cons, not_or]
    exact ⟨by decide, hh⟩
  · refine ⟨rfl, visitRoot_eq "fr" h (by decide), ?_⟩
    rw [visitRoot_eq "fr" h (by decide)]
    simp only [List.mem_cons, not_or]
    exact ⟨by decide, hh⟩
  · refine ⟨rfl, visitRoot_eq "es" h (by decide), ?_⟩
    rw [visitRoot_eq "es" h (by decide)]
    simp only [List.mem_cons, not_or]
    exact ⟨by decide, hh⟩

theorem root_redirect_replaces_history_witness :
    ("en" ∈ locales ∧ "/" ∉ ["/en/about"]) ∧
      ((RouteComponent "en").replace = true ∧
        visitRoot "en" ["/en/about"] = ("/" ++ "en") :: ["/en/about"] ∧
        "/" ∉ visitRoot "en" ["/en/about"]) :=
  ⟨⟨by decide, by decide⟩,
    root_redirect_replaces_history "en" ["/en/about"] (by decide) (by decide)⟩

/-- C8: the locale switcher's rendered select has as many options as
configured supported locales, and exactly the option whose value is the
active locale is selected. -/
theorem switcher_options_invariant (loc : String) (hl : loc ∈ locales) :
    (LocaleSwitcher locales loc).options.length = locales.length ∧
      selOpts (LocaleSwitcher locales loc) = [⟨loc, loc⟩] := by
  have hl' : loc = "en" ∨ loc = "fr" ∨ loc = "es" := by simpa [locales] using hl
  rcases hl' with h | h | h <;> subst h <;> exact ⟨by decide, by decide⟩

theorem switcher_options_invariant_witness :
    "fr" ∈ locales ∧
      ((LocaleSwitcher locales "fr").options.length = locales.length ∧
        selOpts (LocaleSwitcher locales "fr") = [⟨"fr", "fr"⟩]) :=
  ⟨by decide, switcher_options_invariant "fr" (by decide)⟩

/-- C9: for every target string and every locale, `LocalizedLink` and the
function returned by `useLocalizedNavigate` compute the same resolved
destination. -/
theorem link_navigate_same_dest {ρ ρ' : Type} (r : ρ) (r' : ρ') (t L : String) :
    (LocalizedLink L ⟨t, r⟩).«to» = (localizedNavigate L ⟨t, r'⟩).«to» := rfl

/-- C10: both navigation wrappers rewrite only the `to` field: every
other field of the options/props is forwarded unchanged. -/
theorem only_to_rewritten {ρ : Type} (L : String) (o pr : ToProps ρ) :
    (localizedNavigate L o).rest = o.rest ∧ (LocalizedLink L pr).rest = pr.rest :=
  ⟨rfl, rfl⟩
